import Mathlib

/-
Shallow embedding of the linter in `linter.py` and proofs about its rule
engines.  The embedding starts from the point where the syntax-tree provider
(an external collaborator per the design) has already produced the top-level
statement list of a file: raw lines are given as `List String`, the tree as a
`List Stmt`, and a declaration's subtree is given by the identifier references
(with their load/store contexts) that `ast.NodeVisitor` traversal yields.
-/

/- ===================== Python string primitives ===================== -/

/-- Characters treated as whitespace by Python's `str.strip` and `str.split`
(ASCII range; the source files are ASCII apart from the arrow glyph). -/
def pySpace (c : Char) : Bool :=
  c == ' ' || c == '\t' || c == '\n' || c == '\r' || c == '\x0b' || c == '\x0c'

/-- `l` with leading and trailing whitespace removed (Python `str.strip`). -/
def pyStripList (l : List Char) : List Char :=
  ((l.dropWhile pySpace).reverse.dropWhile pySpace).reverse

/-- Python `s.strip()`. -/
def pyStrip (s : String) : String := String.mk (pyStripList s.data)

/-- Python `s.startswith(p)`. -/
def pyStartsWith (s p : String) : Bool := p.data.isPrefixOf s.data

/-- `sub` occurs as a contiguous sublist of `l` (Python's `in` on strings). -/
def listContainsSub (sub : List Char) : List Char → Bool
  | [] => sub.isEmpty
  | c :: rest => sub.isPrefixOf (c :: rest) || listContainsSub sub rest

/-- Python `sub in s`. -/
def pyContains (s sub : String) : Bool := listContainsSub sub.data s.data

/-- Python `s.lstrip('#')`: remove every leading `'#'` character. -/
def pyLstripHash (s : String) : String := String.mk (s.data.dropWhile (fun c => c == '#'))

/-- Python `s.split()`: the maximal whitespace-free words of `s`. -/
def pyWords (s : String) : List String :=
  ((s.data.splitOnP pySpace).filter (fun w => w ≠ [])).map String.mk

/-- One step list of segments for `splitOnFuel`; `fuel` bounds the recursion
and is always at least the length of the scanned list, so the fuel-exhausted
branch is never reached for a non-empty separator. -/
def splitOnFuel (sep : List Char) : Nat → List Char → List Char → List (List Char)
  | 0, l, acc => [acc.reverse ++ l]
  | fuel + 1, l, acc =>
    match l with
    | [] => [acc.reverse]
    | c :: rest =>
      if sep.isPrefixOf (c :: rest) then
        acc.reverse :: splitOnFuel sep fuel ((c :: rest).drop sep.length) []
      else
        splitOnFuel sep fuel rest (c :: acc)

/-- Python `s.split(sep)` for a non-empty separator `sep`: split on every
non-overlapping occurrence of `sep`, scanning left to right. -/
def pySplit (s sep : String) : List String :=
  (splitOnFuel sep.data (s.data.length + 1) s.data []).map String.mk

/-- Python `str.isupper` (ASCII model): at least one cased character and no
lowercase character. -/
def pyIsUpper (s : String) : Bool :=
  s.data.any Char.isUpper && !(s.data.any Char.isLower)

/-- Little-endian decimal digit list of `n`, with explicit fuel so that the
definition is structurally recursive; `fuel ≥ n` always suffices. -/
def natDigitsLEFuel : Nat → Nat → List Nat
  | 0, _ => []
  | _ + 1, 0 => []
  | fuel + 1, n + 1 => (n + 1) % 10 :: natDigitsLEFuel fuel ((n + 1) / 10)

/-- The decimal digit characters. -/
def digitChar10 (d : Nat) : Char :=
  match d with
  | 0 => '0' | 1 => '1' | 2 => '2' | 3 => '3' | 4 => '4'
  | 5 => '5' | 6 => '6' | 7 => '7' | 8 => '8' | _ => '9'

/-- Python `str(n)` for a non-negative integer `n` (the rendering used by the
f-strings in `check_comment_rules`). -/
def pyStrNat (n : Nat) : String :=
  if n = 0 then "0" else String.mk (((natDigitsLEFuel n n).reverse).map digitChar10)

/- ===================== Data model of the syntax tree ===================== -/

/-- One formal parameter node (`ast.arg`); `arg` is the parameter's name. -/
structure Arg where
  arg : String
deriving DecidableEq

/-- The expression context of an `ast.Name` node. -/
inductive Ctx where
  | load
  | store
  | del
deriving DecidableEq

/-- One identifier reference found when walking a declaration's subtree. -/
structure NameRef where
  id : String
  ctx : Ctx
deriving DecidableEq

/-- A top-level plain function definition (`ast.FunctionDef`): name, 1-based
start line, formal parameters (`func.args.args`), the 1-based start lines of
its body statements (Python guarantees the body is non-empty), and the
identifier references of its whole subtree in visit order. -/
structure FunctionDef where
  name : String
  lineno : Nat
  args : List Arg
  bodyLinenos : List Nat
  refs : List NameRef
deriving DecidableEq

/-- One `ast.alias` of an import statement. -/
structure ImportAlias where
  name : String
  asname : Option String
deriving DecidableEq

/-- One assignment target: a plain `ast.Name` or anything else. -/
inductive Target where
  | name (id : String)
  | other
deriving DecidableEq

/-- A top-level statement as `lint_file` distinguishes them: import-like
(`ast.Import` / `ast.ImportFrom`, handled identically), assignment, plain
function definition, async function definition, class definition, or any
other statement kind. -/
inductive Stmt where
  | importLike (aliases : List ImportAlias)
  | assign (targets : List Target)
  | functionDef (f : FunctionDef)
  | asyncFunctionDef (f : FunctionDef)
  | classDef (cname : String)
  | otherStmt
deriving DecidableEq

/- ===================== parse_comments ===================== -/

/-- The classification test of `parse_comments` and `extract_range_block`:
`line.strip().startswith('#')`. -/
def isCommentLine (l : String) : Bool := pyStartsWith (pyStrip l) "#"

/-- The blank-line test of `extract_range_block`: `not line.strip()`. -/
def isBlankLine (l : String) : Bool := pyStrip l == ""

/-- Recursion of `parse_comments` over the enumerated lines (`i` is the
1-based number of the first line of `rest`). -/
def parseCommentsAux : Nat → List String → List (Nat × String) × List (Nat × String)
  | _, [] => ([], [])
  | i, line :: rest =>
    let p := parseCommentsAux (i + 1) rest
    if isCommentLine line then ((i, line) :: p.1, p.2) else (p.1, (i, line) :: p.2)

/-- `parse_comments(lines)`: split the enumerated lines into comment records
and code records, both in original order. -/
def parse_comments (lines : List String) : List (Nat × String) × List (Nat × String) :=
  parseCommentsAux 1 lines

/- ===================== check_comment_rules ===================== -/

/-- The comment body used by the length and uniqueness rules:
`text.lstrip('#').strip()`. -/
def commentBody (text : String) : String := pyStrip (pyLstripHash text)

/-- The per-comment loop of `check_comment_rules`: `seen` is the set of
bodies already encountered (modelled as a list queried by membership; Python
adds every body to the set after checking it). -/
def ccrLoop (seen : List String) : List (Nat × String) → List String
  | [] => []
  | (lineno, text) :: rest =>
    let body := commentBody text
    (if (pyWords body).length ≤ 5 then ["COMMENT_TOO_SHORT:<file>/" ++ pyStrNat lineno] else [])
      ++ (if seen.contains body then ["DUPLICATE_COMMENT_FOUND:<file>/" ++ pyStrNat lineno] else [])
      ++ ccrLoop (body :: seen) rest

/-- The first line number used by the density violation:
`comments[0][0] if comments else 1`. -/
def densityLineNo (comments : List (Nat × String)) : Nat :=
  match comments with
  | [] => 1
  | (n, _) :: _ => n

/-- `check_comment_rules(comments, total_lines)`: density check followed by
the per-comment length and uniqueness checks. -/
def check_comment_rules (comments : List (Nat × String)) (total_lines : Nat) : List String :=
  (if comments.length * 3 < total_lines then
    ["INSUFFICIENT_COMMENT_DENSITY:<file>/" ++ pyStrNat (densityLineNo comments)]
  else [])
    ++ ccrLoop [] comments

/- ===================== extract_range_block ===================== -/

/-- The upward scan of `extract_range_block`.  When the argument is `j + 1`
the line inspected is `lines[j]`; Python's loop starts at
`idx = start_index - 1` and stops when `idx` drops below zero or the current
line is neither a comment nor blank.  Comment lines are prepended to the
accumulated block. -/
def erbLoop (lines : List String) : Nat → List String → List String
  | 0, block => block
  | j + 1, block =>
    if isCommentLine (lines.getD j "") || isBlankLine (lines.getD j "") then
      erbLoop lines j
        (if isCommentLine (lines.getD j "") then lines.getD j "" :: block else block)
    else
      block

/-- `extract_range_block(lines, start_index)`. -/
def extract_range_block (lines : List String) (start_index : Nat) : List String :=
  erbLoop lines start_index []

/- ===================== check_function_rules ===================== -/

/-- The used set of `_NameVisitor`: ids of references in `Load` context. -/
def visitorUsed (refs : List NameRef) : List String :=
  (refs.filter (fun r => r.ctx == Ctx.load)).map NameRef.id

/-- The assigned set of `_NameVisitor`: ids of references in `Store` context. -/
def visitorAssigned (refs : List NameRef) : List String :=
  (refs.filter (fun r => r.ctx == Ctx.store)).map NameRef.id

/-- Python's `name in func.args.args` compares the string `name` with
`ast.arg` objects via `==`; `ast.arg` does not define `__eq__`, so the
comparison falls back to object identity and is false for every element.
The membership test in the source is therefore constantly false. -/
def pyStrEqArg (_name : String) (_a : Arg) : Bool := false

/-- Python `name in func.args.args` (see `pyStrEqArg`). -/
def pyStrInArgs (name : String) (args : List Arg) : Bool := args.any (pyStrEqArg name)

/-- Python `name.startswith('test_')`. -/
def isTestName (s : String) : Bool := pyStartsWith s "test_"

/-- The expectation marker prefix demanded of a block's first line. -/
def rangeMarker (name : String) : String := "# [RANGE-EXPECTATION]: " ++ name

/-- `not block or not block[0].startswith(marker)`. -/
def missingRangeCond (block : List String) (name : String) : Bool :=
  match block with
  | [] => true
  | b0 :: _ => !(pyStartsWith b0 (rangeMarker name))

/-- `isinstance(next_node, ast.FunctionDef) and next_node.name.startswith('test_')`;
`ast.AsyncFunctionDef` is not a subclass of `ast.FunctionDef`, so only a
plain function definition can satisfy this. -/
def nextIsTestFunctionDef (next_node : Option Stmt) : Bool :=
  match next_node with
  | some (Stmt.functionDef g) => isTestName g.name
  | _ => false

/-- `''.join(lines[func.body[0].lineno-1 : func.body[-1].lineno])`: the raw
text from the first body statement's start line through the last body
statement's start line.  The defaults of `headD`/`getLastD` are irrelevant
because a Python function body is never empty. -/
def bodyText (func : FunctionDef) (lines : List String) : String :=
  String.join ((lines.take (func.bodyLinenos.getLastD 1)).drop (func.bodyLinenos.headD 1 - 1))

/-- `re.search(rf'^#\s+{p}:', line)` for an identifier `p`: the raw line must
begin with `'#'` at position zero, followed by at least one whitespace
character, then `p` and a colon.  (Since an identifier cannot begin with a
whitespace character, the greedy reading of `\s+` is exact.) -/
def paramDocMatch (p line : String) : Bool :=
  match line.data with
  | '#' :: rest =>
    !((rest.takeWhile pySpace).isEmpty) && (p.data ++ [':']).isPrefixOf (rest.dropWhile pySpace)
  | _ => false

/-- `line.split('case')[1].split(':')[0].strip()`. -/
def caseLabel (line : String) : String :=
  pyStrip (((pySplit ((pySplit line "case").getD 1 "") ":").getD 0 ""))

/-- `check_function_rules(func, lines, imports, globals_in_module, next_node)`:
the seven per-declaration rules, in source order.  The regex and ast modules
are implicit in the embedding. -/
def check_function_rules (func : FunctionDef) (lines : List String)
    (imports globals_in_module : List String) (next_node : Option Stmt) : List String :=
  let block := extract_range_block lines (func.lineno - 1)
  let used := visitorUsed func.refs
  let assigned := visitorAssigned func.refs
  (if missingRangeCond block func.name then
    ["MISSING_RANGE_EXPECTATION:" ++ func.name] else [])
    ++ (if !isTestName func.name && !nextIsTestFunctionDef next_node then
      ["IMMEDIATE_TEST_MISSING:" ++ func.name] else [])
    ++ imports.filterMap (fun name =>
      if used.contains name && !pyStrInArgs name func.args && !assigned.contains name then
        some ("IMPLICIT_IMPORT_VIOLATION:" ++ (func.name ++ "/" ++ name)) else none)
    ++ globals_in_module.filterMap (fun name =>
      if used.contains name && !pyStrInArgs name func.args && !assigned.contains name then
        some ("OUT_OF_SCOPE_VARIABLE:" ++ (func.name ++ "/" ++ name)) else none)
    ++ (if isTestName func.name && !pyContains (bodyText func lines) ".seed(" then
      ["NON_DETERMINISTIC_TESTING:" ++ func.name] else [])
    ++ (func.args.map Arg.arg).filterMap (fun p =>
      if !(block.any (fun line => paramDocMatch p line)) then
        some ("RANGE_EXPECTATION_INCOMPLETE:" ++ (func.name ++ "/" ++ p)) else none)
    ++ block.filterMap (fun line =>
      if pyContains line "case" && !pyContains line "→" then
        some ("CASE_EXPECTATION_UNDEFINED:" ++ (func.name ++ "/" ++ caseLabel line)) else none)

/- ===================== lint_file ===================== -/

/-- Add a name to a set modelled as a duplicate-free list. -/
def setAdd (s : List String) (x : String) : List String :=
  if s.contains x then s else s ++ [x]

/-- `alias.asname or alias.name.split('.')[0]`. -/
def importedName (a : ImportAlias) : String :=
  match a.asname with
  | some an => an
  | none => (pySplit a.name ".").getD 0 ""

/-- The first pass of `lint_file` over the top-level statements, building the
`imports` and `globals_in_module` sets. -/
def buildScopeSets (tree : List Stmt) : List String × List String :=
  tree.foldl (fun acc node =>
    match node with
    | Stmt.importLike aliases => (aliases.foldl (fun s a => setAdd s (importedName a)) acc.1, acc.2)
    | Stmt.assign targets =>
      (acc.1, targets.foldl (fun s t =>
        match t with
        | Target.name id => if !pyIsUpper id then setAdd s id else s
        | Target.other => s) acc.2)
    | _ => acc) ([], [])

/-- `has_all`: some top-level assignment has a `Name` target `__all__`. -/
def hasAll (tree : List Stmt) : Bool :=
  tree.any (fun node =>
    match node with
    | Stmt.assign targets =>
      targets.any (fun t =>
        match t with
        | Target.name id => id == "__all__"
        | Target.other => false)
    | _ => false)

/-- The per-declaration loop of `lint_file`: only plain `ast.FunctionDef`
nodes are checked, and `next_node` is the statement that follows in the
top-level body (of any kind), or none at the end. -/
def lintLoop (lines : List String) (imports globals_in_module : List String) :
    List Stmt → List String
  | [] => []
  | node :: rest =>
    (match node with
     | Stmt.functionDef f => check_function_rules f lines imports globals_in_module rest.head?
     | _ => []) ++ lintLoop lines imports globals_in_module rest

/-- `lint_file(path, ...)` from the point where the raw text has been split
into `lines` and parsed into the top-level statement list `tree`: the export
whitelist check, the comment-policy check, then the per-declaration checks in
order. -/
def lint_file (path : String) (lines : List String) (tree : List Stmt) : List String :=
  let sets := buildScopeSets tree
  (if !hasAll tree then ["MODULE_EXPORT_VIOLATION:" ++ path] else [])
    ++ check_comment_rules (parse_comments lines).1 lines.length
    ++ lintLoop lines sets.1 sets.2 tree

/- ===================== String infrastructure lemmas ===================== -/

/-- Two strings with concrete distinct prefixes differ: if the underlying
character lists disagree at some position inside both prefixes, no suffixes
can make the concatenations equal. -/
theorem strAppendNeOfGet (a b x y : String) (k : Nat)
    (hk : k < a.data.length) (hk2 : k < b.data.length)
    (h : a.data[k]? ≠ b.data[k]?) : a ++ x ≠ b ++ y := by
  intro he
  apply h
  have hd := congrArg String.data he
  rw [String.data_append, String.data_append] at hd
  calc a.data[k]? = (a.data ++ x.data)[k]? := (List.getElem?_append_left hk).symm
    _ = (b.data ++ y.data)[k]? := by rw [hd]
    _ = b.data[k]? := List.getElem?_append_left hk2

/-- Left cancellation for string concatenation. -/
theorem strAppendLeftCancel {a x y : String} (h : a ++ x = a ++ y) : x = y := by
  have hd := congrArg String.data h
  rw [String.data_append, String.data_append] at hd
  exact String.ext (List.append_cancel_left hd)

/-- Numeric value of a decimal digit character. -/
def dval (c : Char) : Nat := c.toNat - 48

/-- Little-endian value of a decimal digit list. -/
def natValLE (ds : List Nat) : Nat := ds.foldr (fun d acc => d + 10 * acc) 0

/-- Big-endian value of a decimal character list. -/
def valChars (cs : List Char) : Nat := cs.foldl (fun acc c => acc * 10 + dval c) 0

theorem dval_digitChar10 (d : Nat) (hd : d < 10) : dval (digitChar10 d) = d := by
  interval_cases d <;> rfl

theorem natDigitsLEFuel_lt (f : Nat) : ∀ n, ∀ d ∈ natDigitsLEFuel f n, d < 10 := by
  induction f with
  | zero => intro n d hd; simp [natDigitsLEFuel] at hd
  | succ f ih =>
    intro n d hd
    match n with
    | 0 => simp [natDigitsLEFuel] at hd
    | m + 1 =>
      simp only [natDigitsLEFuel, List.mem_cons] at hd
      rcases hd with rfl | hd
      · exact Nat.mod_lt _ (by omega)
      · exact ih _ d hd

theorem natValLE_natDigitsLEFuel (f : Nat) : ∀ n, n ≤ f → natValLE (natDigitsLEFuel f n) = n := by
  induction f with
  | zero =>
    intro n hn
    have : n = 0 := Nat.le_zero.mp hn
    subst this
    rfl
  | succ f ih =>
    intro n hn
    match n with
    | 0 => rfl
    | m + 1 =>
      have h1 : (m + 1) / 10 ≤ f := by
        have := Nat.div_lt_self (Nat.succ_pos m) (by omega : 1 < 10)
        omega
      have h2 : natValLE (natDigitsLEFuel (f + 1) (m + 1))
          = (m + 1) % 10 + 10 * natValLE (natDigitsLEFuel f ((m + 1) / 10)) := rfl
      rw [h2, ih _ h1]
      omega

theorem foldl_digits_rev (ds : List Nat) (h : ∀ d ∈ ds, d < 10) :
    ∀ a : Nat, List.foldl (fun acc c => acc * 10 + dval c) a ((ds.map digitChar10).reverse)
      = a * 10 ^ ds.length + natValLE ds := by
  induction ds with
  | nil => intro a; simp [natValLE]
  | cons d ds ih =>
    intro a
    have hd : d < 10 := h d (List.mem_cons_self d ds)
    have hds : ∀ e ∈ ds, e < 10 := fun e he => h e (List.mem_cons_of_mem d he)
    simp only [List.map_cons, List.reverse_cons, List.foldl_append, ih hds a, List.foldl]
    have hval : natValLE (d :: ds) = d + 10 * natValLE ds := rfl
    rw [hval, dval_digitChar10 d hd, List.length_cons, pow_succ]
    ring

theorem valChars_pyStrNat (n : Nat) : valChars (pyStrNat n).data = n := by
  by_cases h0 : n = 0
  · subst h0; rfl
  · have h1 : pyStrNat n = String.mk (((natDigitsLEFuel n n).reverse).map digitChar10) := by
      unfold pyStrNat
      simp [h0]
    rw [h1]
    show valChars (((natDigitsLEFuel n n).reverse).map digitChar10) = n
    have h2 : ((natDigitsLEFuel n n).reverse).map digitChar10
        = ((natDigitsLEFuel n n).map digitChar10).reverse := List.map_reverse _ _
    rw [h2]
    have h3 := foldl_digits_rev (natDigitsLEFuel n n) (natDigitsLEFuel_lt n n) 0
    show List.foldl (fun acc c => acc * 10 + dval c) 0
        (((natDigitsLEFuel n n).map digitChar10).reverse) = n
    rw [h3, natValLE_natDigitsLEFuel n n (Nat.le_refl n)]
    ring

/-- `pyStrNat` is injective: two distinct line numbers render to distinct
decimal strings. -/
theorem pyStrNat_inj {a b : Nat} (h : pyStrNat a = pyStrNat b) : a = b := by
  have h1 := congrArg (fun s => valChars s.data) h
  simpa [valChars_pyStrNat] using h1

/- ===================== Generic membership helpers ===================== -/

theorem mem_if_singleton {c : Prop} [Decidable c] {x s : String} :
    (s ∈ if c then [x] else ([] : List String)) ↔ c ∧ s = x := by
  split <;> simp_all

theorem eq_of_mem_filterMapIf {α : Type} {l : List α} {c : α → Bool} {g : α → String} {s : String}
    (h : s ∈ l.filterMap (fun a => if c a then some (g a) else none)) :
    ∃ a ∈ l, c a = true ∧ s = g a := by
  rcases List.mem_filterMap.mp h with ⟨a, ha, hfa⟩
  by_cases hc : c a
  · rw [if_pos hc] at hfa
    exact ⟨a, ha, hc, (Option.some.inj hfa).symm⟩
  · rw [if_neg hc] at hfa
    cases hfa

theorem mem_filterMapIf {α : Type} {l : List α} {c : α → Bool} {g : α → String} {a : α}
    (ha : a ∈ l) (hc : c a = true) :
    g a ∈ l.filterMap (fun b => if c b then some (g b) else none) :=
  List.mem_filterMap.mpr ⟨a, ha, by rw [hc]; rfl⟩

/- ===================== extract_range_block lemmas ===================== -/

/-- The block accumulator of the upward scan is a suffix of the result:
everything collected deeper in the scan is prepended in front of it. -/
theorem erbLoop_acc (lines : List String) :
    ∀ j acc, erbLoop lines j acc = erbLoop lines j [] ++ acc := by
  intro j
  induction j with
  | zero => intro acc; simp [erbLoop]
  | succ j ih =>
    intro acc
    simp only [erbLoop]
    split
    · split
      · rw [ih (lines.getD j "" :: acc), ih [lines.getD j ""]]
        simp
      · exact ih acc
    · simp

/- ===================== check_comment_rules lemmas ===================== -/

theorem dup_ne_short (n m : Nat) :
    "DUPLICATE_COMMENT_FOUND:<file>/" ++ pyStrNat n
      ≠ "COMMENT_TOO_SHORT:<file>/" ++ pyStrNat m :=
  strAppendNeOfGet _ _ _ _ 0 (by decide) (by decide) (by decide)

theorem dup_ne_density (n m : Nat) :
    "DUPLICATE_COMMENT_FOUND:<file>/" ++ pyStrNat n
      ≠ "INSUFFICIENT_COMMENT_DENSITY:<file>/" ++ pyStrNat m :=
  strAppendNeOfGet _ _ _ _ 0 (by decide) (by decide) (by decide)

theorem dup_inj {n m : Nat}
    (h : "DUPLICATE_COMMENT_FOUND:<file>/" ++ pyStrNat n
      = "DUPLICATE_COMMENT_FOUND:<file>/" ++ pyStrNat m) : n = m :=
  pyStrNat_inj (strAppendLeftCancel h)

theorem ccrLoop_cons (seen : List String) (n : Nat) (t : String) (rest : List (Nat × String)) :
    ccrLoop seen ((n, t) :: rest)
      = (if (pyWords (commentBody t)).length ≤ 5 then
          ["COMMENT_TOO_SHORT:<file>/" ++ pyStrNat n] else [])
        ++ (if seen.contains (commentBody t) then
          ["DUPLICATE_COMMENT_FOUND:<file>/" ++ pyStrNat n] else [])
        ++ ccrLoop (commentBody t :: seen) rest := rfl

/-- An occurrence whose body was already seen (in `seen` or earlier in the
list) is flagged as a duplicate. -/
theorem ccrLoop_dup_mem :
    ∀ (pre : List (Nat × String)) (seen : List String) (n : Nat) (t : String)
      (post : List (Nat × String)),
      (commentBody t ∈ seen ∨ ∃ p ∈ pre, commentBody p.2 = commentBody t) →
      ("DUPLICATE_COMMENT_FOUND:<file>/" ++ pyStrNat n) ∈ ccrLoop seen (pre ++ (n, t) :: post) := by
  intro pre
  induction pre with
  | nil =>
    intro seen n t post h
    rcases h with h | ⟨p, hp, _⟩
    · rw [List.nil_append, ccrLoop_cons]
      refine List.mem_append.mpr (Or.inl (List.mem_append.mpr (Or.inr ?_)))
      have hc : seen.contains (commentBody t) = true := by simpa [List.elem_iff] using h
      rw [if_pos hc]
      simp
    · exact absurd hp (List.not_mem_nil p)
  | cons q pre ih =>
    intro seen n t post h
    rcases q with ⟨m, u⟩
    rw [List.cons_append, ccrLoop_cons]
    refine List.mem_append.mpr (Or.inr ?_)
    apply ih
    rcases h with h | ⟨p, hp, hpe⟩
    · exact Or.inl (List.mem_cons_of_mem _ h)
    · rcases List.mem_cons.mp hp with rfl | hp2
      · exact Or.inl (by rw [← hpe]; exact List.mem_cons_self _ _)
      · exact Or.inr ⟨p, hp2, hpe⟩

/-- A comment whose body has at most five words is flagged as too short. -/
theorem ccrLoop_short_mem :
    ∀ (pre : List (Nat × String)) (seen : List String) (n : Nat) (t : String)
      (post : List (Nat × String)),
      (pyWords (commentBody t)).length ≤ 5 →
      ("COMMENT_TOO_SHORT:<file>/" ++ pyStrNat n) ∈ ccrLoop seen (pre ++ (n, t) :: post) := by
  intro pre
  induction pre with
  | nil =>
    intro seen n t post h
    rw [List.nil_append, ccrLoop_cons]
    refine List.mem_append.mpr (Or.inl (List.mem_append.mpr (Or.inl ?_)))
    rw [if_pos h]
    simp
  | cons q pre ih =>
    intro seen n t post h
    rcases q with ⟨m, u⟩
    rw [List.cons_append, ccrLoop_cons]
    exact List.mem_append.mpr (Or.inr (ih _ n t post h))

/-- No duplicate violation for line `n` can come from entries whose line
number differs from `n`. -/
theorem ccrLoop_dup_not_mem_all :
    ∀ (cs : List (Nat × String)) (seen : List String) (n : Nat),
      (∀ p ∈ cs, p.1 ≠ n) →
      ("DUPLICATE_COMMENT_FOUND:<file>/" ++ pyStrNat n) ∉ ccrLoop seen cs := by
  intro cs
  induction cs with
  | nil => intro seen n _; simp [ccrLoop]
  | cons q rest ih =>
    intro seen n h hmem
    rcases q with ⟨m, u⟩
    rw [ccrLoop_cons] at hmem
    rcases List.mem_append.mp hmem with h12 | h3
    · rcases List.mem_append.mp h12 with h1 | h2
      · rcases mem_if_singleton.mp h1 with ⟨_, heq⟩
        exact dup_ne_short n m heq
      · rcases mem_if_singleton.mp h2 with ⟨_, heq⟩
        exact h (m, u) (List.mem_cons_self _ _) (dup_inj heq).symm
    · exact ih (commentBody u :: seen) n (fun p hp => h p (List.mem_cons_of_mem _ hp)) h3

/-- The first occurrence of a body is never flagged as a duplicate: if no
earlier entry has the same body (and no other entry reuses the line number),
the duplicate violation for that line is absent. -/
theorem ccrLoop_dup_not_mem :
    ∀ (pre : List (Nat × String)) (seen : List String) (n : Nat) (t : String)
      (post : List (Nat × String)),
      commentBody t ∉ seen →
      (∀ p ∈ pre, commentBody p.2 ≠ commentBody t) →
      (∀ p ∈ pre ++ post, p.1 ≠ n) →
      ("DUPLICATE_COMMENT_FOUND:<file>/" ++ pyStrNat n) ∉ ccrLoop seen (pre ++ (n, t) :: post) := by
  intro pre
  induction pre with
  | nil =>
    intro seen n t post hseen _ hpost hmem
    rw [List.nil_append, ccrLoop_cons] at hmem
    rcases List.mem_append.mp hmem with h12 | h3
    · rcases List.mem_append.mp h12 with h1 | h2
      · rcases mem_if_singleton.mp h1 with ⟨_, heq⟩
        exact dup_ne_short n n heq
      · rcases mem_if_singleton.mp h2 with ⟨hc, _⟩
        exact hseen (List.elem_iff.mp hc)
    · exact ccrLoop_dup_not_mem_all post _ n (by simpa using hpost) h3
  | cons q pre ih =>
    intro seen n t post hseen hpre hrest hmem
    rcases q with ⟨m, u⟩
    rw [List.cons_append, ccrLoop_cons] at hmem
    rcases List.mem_append.mp hmem with h12 | h3
    · rcases List.mem_append.mp h12 with h1 | h2
      · rcases mem_if_singleton.mp h1 with ⟨_, heq⟩
        exact dup_ne_short n m heq
      · rcases mem_if_singleton.mp h2 with ⟨_, heq⟩
        exact hrest (m, u) (by simp) (dup_inj heq).symm
    · refine ih (commentBody u :: seen) n t post ?_ ?_ ?_ h3
      · intro hc
        rcases List.mem_cons.mp hc with hc1 | hc2
        · exact hpre (m, u) (List.mem_cons_self _ _) hc1.symm
        · exact hseen hc2
      · exact fun p hp => hpre p (List.mem_cons_of_mem _ hp)
      · intro p hp
        exact hrest p (by rw [List.cons_append]; exact List.mem_cons_of_mem _ hp)

/- ===================== check_function_rules lemmas ===================== -/

/-- Complete characterization of membership in the output of
`check_function_rules`: a string is produced exactly when one of the seven
rules fires and the string is the corresponding violation line. -/
theorem cfr_mem_iff (func : FunctionDef) (lines : List String)
    (imports globals_in_module : List String) (next_node : Option Stmt) (s : String) :
    s ∈ check_function_rules func lines imports globals_in_module next_node ↔
      ((missingRangeCond (extract_range_block lines (func.lineno - 1)) func.name = true
          ∧ s = "MISSING_RANGE_EXPECTATION:" ++ func.name)
        ∨ ((!isTestName func.name && !nextIsTestFunctionDef next_node) = true
          ∧ s = "IMMEDIATE_TEST_MISSING:" ++ func.name)
        ∨ (∃ name ∈ imports,
            ((visitorUsed func.refs).contains name && !pyStrInArgs name func.args
              && !(visitorAssigned func.refs).contains name) = true
            ∧ s = "IMPLICIT_IMPORT_VIOLATION:" ++ (func.name ++ "/" ++ name))
        ∨ (∃ name ∈ globals_in_module,
            ((visitorUsed func.refs).contains name && !pyStrInArgs name func.args
              && !(visitorAssigned func.refs).contains name) = true
            ∧ s = "OUT_OF_SCOPE_VARIABLE:" ++ (func.name ++ "/" ++ name))
        ∨ ((isTestName func.name && !pyContains (bodyText func lines) ".seed(") = true
          ∧ s = "NON_DETERMINISTIC_TESTING:" ++ func.name)
        ∨ (∃ p ∈ func.args.map Arg.arg,
            (!((extract_range_block lines (func.lineno - 1)).any
              (fun line => paramDocMatch p line))) = true
            ∧ s = "RANGE_EXPECTATION_INCOMPLETE:" ++ (func.name ++ "/" ++ p))
        ∨ (∃ line ∈ extract_range_block lines (func.lineno - 1),
            (pyContains line "case" && !pyContains line "→") = true
            ∧ s = "CASE_EXPECTATION_UNDEFINED:" ++ (func.name ++ "/" ++ caseLabel line))) := by
  constructor
  · intro h
    simp only [check_function_rules] at h
    rcases List.mem_append.mp h with h | hg
    · rcases List.mem_append.mp h with h | hf
      · rcases List.mem_append.mp h with h | he
        · rcases List.mem_append.mp h with h | hd
          · rcases List.mem_append.mp h with h | hc
            · rcases List.mem_append.mp h with ha | hb
              · exact Or.inl (mem_if_singleton.mp ha)
              · exact Or.inr (Or.inl (mem_if_singleton.mp hb))
            · rcases eq_of_mem_filterMapIf hc with ⟨name, hn, hcond, hs⟩
              exact Or.inr (Or.inr (Or.inl ⟨name, hn, hcond, hs⟩))
          · rcases eq_of_mem_filterMapIf hd with ⟨name, hn, hcond, hs⟩
            exact Or.inr (Or.inr (Or.inr (Or.inl ⟨name, hn, hcond, hs⟩)))
        · exact Or.inr (Or.inr (Or.inr (Or.inr (Or.inl (mem_if_singleton.mp he)))))
      · rcases eq_of_mem_filterMapIf hf with ⟨p, hp, hcond, hs⟩
        exact Or.inr (Or.inr (Or.inr (Or.inr (Or.inr (Or.inl ⟨p, hp, hcond, hs⟩)))))
    · rcases eq_of_mem_filterMapIf hg with ⟨line, hl, hcond, hs⟩
      exact Or.inr (Or.inr (Or.inr (Or.inr (Or.inr (Or.inr ⟨line, hl, hcond, hs⟩)))))
  · intro h
    simp only [check_function_rules]
    rcases h with ⟨hcond, rfl⟩ | ⟨hcond, rfl⟩ | ⟨name, hn, hcond, rfl⟩ | ⟨name, hn, hcond, rfl⟩
      | ⟨hcond, rfl⟩ | ⟨p, hp, hcond, rfl⟩ | ⟨line, hl, hcond, rfl⟩
    · refine List.mem_append.mpr (Or.inl (List.mem_append.mpr (Or.inl (List.mem_append.mpr
        (Or.inl (List.mem_append.mpr (Or.inl (List.mem_append.mpr (Or.inl
        (List.mem_append.mpr (Or.inl ?_)))))))))))
      exact mem_if_singleton.mpr ⟨hcond, rfl⟩
    · refine List.mem_append.mpr (Or.inl (List.mem_append.mpr (Or.inl (List.mem_append.mpr
        (Or.inl (List.mem_append.mpr (Or.inl (List.mem_append.mpr (Or.inl
        (List.mem_append.mpr (Or.inr ?_)))))))))))
      exact mem_if_singleton.mpr ⟨hcond, rfl⟩
    · refine List.mem_append.mpr (Or.inl (List.mem_append.mpr (Or.inl (List.mem_append.mpr
        (Or.inl (List.mem_append.mpr (Or.inl (List.mem_append.mpr (Or.inr ?_)))))))))
      exact mem_filterMapIf hn hcond
    · refine List.mem_append.mpr (Or.inl (List.mem_append.mpr (Or.inl (List.mem_append.mpr
        (Or.inl (List.mem_append.mpr (Or.inr ?_)))))))
      exact mem_filterMapIf hn hcond
    · refine List.mem_append.mpr (Or.inl (List.mem_append.mpr (Or.inl (List.mem_append.mpr
        (Or.inr ?_)))))
      exact mem_if_singleton.mpr ⟨hcond, rfl⟩
    · refine List.mem_append.mpr (Or.inl (List.mem_append.mpr (Or.inr ?_)))
      exact mem_filterMapIf hp hcond
    · exact List.mem_append.mpr (Or.inr (mem_filterMapIf hl hcond))

/- ===================== lint_file lemmas ===================== -/

theorem lint_file_eq (path : String) (lines : List String) (tree : List Stmt) :
    lint_file path lines tree =
      (if !hasAll tree then ["MODULE_EXPORT_VIOLATION:" ++ path] else [])
        ++ check_comment_rules (parse_comments lines).1 lines.length
        ++ lintLoop lines (buildScopeSets tree).1 (buildScopeSets tree).2 tree := rfl

/-- The per-declaration part of `lint_file` contains exactly the violations of
the plain function definitions of the tree, each checked against the
statement that follows it. -/
theorem lintLoop_mem_iff (lines : List String) (imports globals_in_module : List String) :
    ∀ (tree : List Stmt) (s : String),
      s ∈ lintLoop lines imports globals_in_module tree ↔
        ∃ pre f post, tree = pre ++ Stmt.functionDef f :: post
          ∧ s ∈ check_function_rules f lines imports globals_in_module post.head? := by
  intro tree
  induction tree with
  | nil =>
    intro s
    simp [lintLoop]
  | cons node rest ih =>
    intro s
    constructor
    · intro h
      rcases List.mem_append.mp h with h1 | h2
      · match node, h1 with
        | Stmt.functionDef f, h1 =>
          exact ⟨[], f, rest, rfl, h1⟩
      · rcases (ih s).mp h2 with ⟨pre, f, post, heq, hmem⟩
        exact ⟨node :: pre, f, post, by rw [heq, List.cons_append], hmem⟩
    · rintro ⟨pre, f, post, heq, hmem⟩
      match pre, heq with
      | [], heq =>
        rw [List.nil_append] at heq
        cases heq
        exact List.mem_append.mpr (Or.inl hmem)
      | q :: pre, heq =>
        rw [List.cons_append] at heq
        cases heq
        exact List.mem_append.mpr (Or.inr ((ih s).mpr ⟨pre, f, post, rfl, hmem⟩))

/- ===================== extract_range_block step lemmas ===================== -/

/-- A line classified as a comment is not blank after stripping. -/
theorem stripped_ne_empty_of_comment (l : String) (h : isCommentLine l = true) :
    pyStrip l ≠ "" := by
  intro he
  simp only [isCommentLine, pyStartsWith] at h
  rw [he] at h
  exact absurd h (by decide)

/-- One step of the upward scan: with argument `i + 1`, the scan inspects
`lines[i]` first and never looks at index `i + 1` itself. -/
theorem erb_step (lines : List String) (i : Nat) :
    extract_range_block lines (i + 1) =
      if isCommentLine (lines.getD i "") then
        extract_range_block lines i ++ [lines.getD i ""]
      else if isBlankLine (lines.getD i "") then
        extract_range_block lines i
      else [] := by
  have h0 : extract_range_block lines (i + 1)
      = if isCommentLine (lines.getD i "") || isBlankLine (lines.getD i "") then
          erbLoop lines i (if isCommentLine (lines.getD i "") then [lines.getD i ""] else [])
        else [] := rfl
  rw [h0]
  by_cases hc : isCommentLine (lines.getD i "")
  · rw [hc]
    simp only [Bool.true_or, if_true]
    exact erbLoop_acc lines i [lines.getD i ""]
  · rw [Bool.not_eq_true] at hc
    rw [hc]
    simp only [Bool.false_or, if_false]
    by_cases hb : isBlankLine (lines.getD i "")
    · rw [hb]
      simp only [if_true]
      rfl
    · rw [Bool.not_eq_true] at hb
      rw [hb]
      simp

/-- `paramDocMatch` is anchored at column zero: it fails on any line whose
first character is not the comment marker. -/
theorem paramDocMatch_eq_false_of_head (p line : String) (h : line.data.head? ≠ some '#') :
    paramDocMatch p line = false := by
  unfold paramDocMatch
  split
  · next heq => exact absurd (by rw [heq]; rfl) h
  · rfl

/- ===================== Claim C1 ===================== -/

/-- Claim C1: the claim states that an imported or module-global name that is
one of the declaration's own formal parameter names never yields a violation.
The code's guard `name not in func.args.args` compares a string against
`ast.arg` objects and is therefore always true, so a parameter name that is
read and never assigned IS flagged.  This theorem evaluates the engine at
such a failing input: `os` is a formal parameter of `f` and is not in the
assigned set, `os` is an imported name, and the implicit-import violation is
emitted anyway; the module-global `cfg` behaves identically. -/
theorem c1_param_name_still_flagged :
    "os" ∈ (FunctionDef.mk "f" 1 [Arg.mk "os", Arg.mk "cfg"] [2]
        [NameRef.mk "os" Ctx.load, NameRef.mk "cfg" Ctx.load]).args.map Arg.arg
      ∧ "os" ∉ visitorAssigned [NameRef.mk "os" Ctx.load, NameRef.mk "cfg" Ctx.load]
      ∧ "IMPLICIT_IMPORT_VIOLATION:f/os" ∈ check_function_rules
          (FunctionDef.mk "f" 1 [Arg.mk "os", Arg.mk "cfg"] [2]
            [NameRef.mk "os" Ctx.load, NameRef.mk "cfg" Ctx.load])
          ["def f(os, cfg):", "    return os.path(cfg)"] ["os"] ["cfg"] none
      ∧ "OUT_OF_SCOPE_VARIABLE:f/cfg" ∈ check_function_rules
          (FunctionDef.mk "f" 1 [Arg.mk "os", Arg.mk "cfg"] [2]
            [NameRef.mk "os" Ctx.load, NameRef.mk "cfg" Ctx.load])
          ["def f(os, cfg):", "    return os.path(cfg)"] ["os"] ["cfg"] none := by
  decide

/- ===================== Claim C2 ===================== -/

/-- Claim C2 (counterexample): the first block line carries extra text after
the declaration name, so it does not match the marker exactly; the claim
therefore demands a MISSING_RANGE_EXPECTATION violation, but the code only
tests a prefix and emits none. -/
theorem c2_counterexample :
    extract_range_block ["# [RANGE-EXPECTATION]: f drives stuff", "def f():", "    pass"] 1
        = ["# [RANGE-EXPECTATION]: f drives stuff"]
      ∧ "# [RANGE-EXPECTATION]: f drives stuff" ≠ rangeMarker "f"
      ∧ "MISSING_RANGE_EXPECTATION:f" ∉ check_function_rules
          (FunctionDef.mk "f" 2 [] [3] [])
          ["# [RANGE-EXPECTATION]: f drives stuff", "def f():", "    pass"] [] [] none := by
  decide

/-- Claim C2 (amended): MISSING_RANGE_EXPECTATION is emitted if and only if
the extracted block is empty or its first line does not START WITH
`# [RANGE-EXPECTATION]: <declaration-name>`; extra text after the name (or a
longer identifier extending the name) still satisfies the prefix test and
yields no violation. -/
theorem c2_missing_range_iff (func : FunctionDef) (lines : List String)
    (imports globals_in_module : List String) (next_node : Option Stmt) :
    ("MISSING_RANGE_EXPECTATION:" ++ func.name)
        ∈ check_function_rules func lines imports globals_in_module next_node
      ↔ (extract_range_block lines (func.lineno - 1) = []
          ∨ ∃ b0 bs, extract_range_block lines (func.lineno - 1) = b0 :: bs
              ∧ pyStartsWith b0 (rangeMarker func.name) = false) := by
  rw [cfr_mem_iff]
  constructor
  · intro h
    rcases h with ⟨hcond, _⟩ | ⟨_, hs⟩ | ⟨name, _, _, hs⟩ | ⟨name, _, _, hs⟩ | ⟨_, hs⟩
      | ⟨p, _, _, hs⟩ | ⟨line, _, _, hs⟩
    · revert hcond
      cases hblock : extract_range_block lines (func.lineno - 1) with
      | nil => exact fun _ => Or.inl rfl
      | cons b0 bs =>
        intro hcond
        simp only [missingRangeCond] at hcond
        exact Or.inr ⟨b0, bs, rfl, by simpa using hcond⟩
    · exact absurd hs (strAppendNeOfGet _ _ _ _ 0 (by decide) (by decide) (by decide))
    · exact absurd hs (strAppendNeOfGet _ _ _ _ 0 (by decide) (by decide) (by decide))
    · exact absurd hs (strAppendNeOfGet _ _ _ _ 0 (by decide) (by decide) (by decide))
    · exact absurd hs (strAppendNeOfGet _ _ _ _ 0 (by decide) (by decide) (by decide))
    · exact absurd hs (strAppendNeOfGet _ _ _ _ 0 (by decide) (by decide) (by decide))
    · exact absurd hs (strAppendNeOfGet _ _ _ _ 0 (by decide) (by decide) (by decide))
  · intro h
    refine Or.inl ⟨?_, rfl⟩
    rcases h with hnil | ⟨b0, bs, hblock, hb⟩
    · rw [hnil]
      rfl
    · rw [hblock]
      simp [missingRangeCond, hb]

/- ===================== Claim C6 ===================== -/

/-- Claim C6 (counterexample): called with the in-range start index 1, the
scan does not examine index 1 itself: the comment line `# second note` at
index 1 is absent from the block, which contains only the line at index 0. -/
theorem c6_counterexample :
    extract_range_block ["# first note", "# second note", "def x():"] 1 = ["# first note"]
      ∧ "# second note" ∉ extract_range_block ["# first note", "# second note", "def x():"] 1 := by
  decide

/-- Claim C6 (amended): the scan begins one position BELOW the given start
index: `extract_range_block lines 0` is empty, and for start index `i + 1`
the line examined first is `lines[i]` — included as the last element when it
is a comment, skipped when blank, and terminating the scan otherwise.  The
line at the given index itself is never examined.  (The call site passes
`func.lineno - 1`, the 0-based index of the declaration's own line, so the
scan effectively begins at the line immediately above the declaration.) -/
theorem c6_amended_scan_starts_below (lines : List String) (i : Nat) :
    extract_range_block lines 0 = []
      ∧ extract_range_block lines (i + 1) =
          (if isCommentLine (lines.getD i "") then
            extract_range_block lines i ++ [lines.getD i ""]
          else if isBlankLine (lines.getD i "") then
            extract_range_block lines i
          else []) :=
  ⟨rfl, erb_step lines i⟩

/- ===================== Claim C7 ===================== -/

/-- Claim C7: the block returned by `extract_range_block` never contains a
line that is blank after stripping; its lines appear in ascending original
order (the block is a sublist of the lines before the start index); and when
the scanned region immediately preceding the start index contains no comment
line — every comment line above the start index is cut off from it by a
non-blank non-comment line — the block is empty. -/
theorem c7_block_invariants (lines : List String) (start_index : Nat) :
    (∀ l ∈ extract_range_block lines start_index, pyStrip l ≠ "")
      ∧ (extract_range_block lines start_index).Sublist (lines.take start_index)
      ∧ ((∀ j, j < start_index → isCommentLine (lines.getD j "") = true →
            ∃ k, j < k ∧ k < start_index ∧ isCommentLine (lines.getD k "") = false
              ∧ isBlankLine (lines.getD k "") = false) →
          extract_range_block lines start_index = []) := by
  induction start_index with
  | zero =>
    exact ⟨by simp [extract_range_block, erbLoop], by simp [extract_range_block, erbLoop],
      fun _ => rfl⟩
  | succ i ih =>
    refine ⟨?_, ?_, ?_⟩
    · intro l hl
      rw [erb_step] at hl
      by_cases hc : isCommentLine (lines.getD i "")
      · rw [if_pos hc] at hl
        rcases List.mem_append.mp hl with h1 | h2
        · exact ih.1 l h1
        · rw [List.mem_singleton] at h2
          subst h2
          exact stripped_ne_empty_of_comment _ hc
      · rw [if_neg hc] at hl
        by_cases hb : isBlankLine (lines.getD i "")
        · rw [if_pos hb] at hl
          exact ih.1 l hl
        · rw [if_neg hb] at hl
          exact absurd hl (List.not_mem_nil l)
    · rw [erb_step]
      by_cases hc : isCommentLine (lines.getD i "")
      · rw [if_pos hc]
        have hilen : i < lines.length := by
          by_contra hge
          push_neg at hge
          rw [List.getD_eq_default _ _ hge] at hc
          exact absurd hc (by decide)
        have htake : lines.take (i + 1) = lines.take i ++ [lines.getD i ""] := by
          rw [List.take_succ, List.getElem?_eq_getElem hilen, List.getD_eq_getElem _ _ hilen]
          rfl
        rw [htake]
        exact List.Sublist.append ih.2.1 (List.Sublist.refl _)
      · have hsub : (lines.take i).Sublist (lines.take (i + 1)) := by
          have h1 : lines.take i = (lines.take (i + 1)).take i := by
            rw [List.take_take]
            congr 1
            omega
          rw [h1]
          exact List.take_sublist _ _
        rw [if_neg hc]
        by_cases hb : isBlankLine (lines.getD i "")
        · rw [if_pos hb]
          exact ih.2.1.trans hsub
        · rw [if_neg hb]
          exact List.nil_sublist _
    · intro hscan
      rw [erb_step]
      by_cases hc : isCommentLine (lines.getD i "")
      · rcases hscan i (Nat.lt_succ_self i) hc with ⟨k, hk1, hk2, _, _⟩
        omega
      · rw [if_neg hc]
        by_cases hb : isBlankLine (lines.getD i "")
        · rw [if_pos hb]
          apply ih.2.2
          intro j hj hcj
          rcases hscan j (by omega) hcj with ⟨k, hk1, hk2, hkc, hkb⟩
          refine ⟨k, hk1, ?_, hkc, hkb⟩
          rcases Nat.lt_succ_iff_lt_or_eq.mp hk2 with hlt | heq
          · exact hlt
          · subst heq
            rw [hb] at hkb
            cases hkb
        · rw [if_neg hb]

/-- Witness for C7 at a concrete input: a single code line precedes the scan
start, so the block is empty, non-blank, and a sublist as claimed. -/
theorem c7_witness :
    extract_range_block ["x = 1"] 1 = []
      ∧ (∀ l ∈ extract_range_block ["x = 1"] 1, pyStrip l ≠ "")
      ∧ (extract_range_block ["x = 1"] 1).Sublist (["x = 1"].take 1) :=
  ⟨(c7_block_invariants ["x = 1"] 1).2.2
      (by intro j hj hcj; interval_cases j; exact absurd hcj (by decide)),
    (c7_block_invariants ["x = 1"] 1).1,
    (c7_block_invariants ["x = 1"] 1).2.1⟩

/- ===================== Claim C3 ===================== -/

/-- Claim C3 (counterexample): a parameterless test-prefixed declaration with
an empty block and no following sibling receives MISSING_RANGE_EXPECTATION
but not IMMEDIATE_TEST_MISSING — the engine exempts test-prefixed names from
the adjacency rule, so the claim's quantification over declarations
"including those whose own name carries the test-name prefix" fails. -/
theorem c3_counterexample :
    "MISSING_RANGE_EXPECTATION:test_x" ∈ check_function_rules
        (FunctionDef.mk "test_x" 1 [] [2] []) ["def test_x():", "    pass"] [] [] none
      ∧ "IMMEDIATE_TEST_MISSING:test_x" ∉ check_function_rules
        (FunctionDef.mk "test_x" 1 [] [2] []) ["def test_x():", "    pass"] [] [] none := by
  decide

/-- Claim C3 (amended): for every parameterless declaration with an empty
expectation block and no following test-prefixed plain function sibling, the
output contains MISSING_RANGE_EXPECTATION, and it additionally contains
IMMEDIATE_TEST_MISSING exactly when the declaration's own name does not carry
the test-name prefix (test-prefixed declarations are exempt from the
adjacency rule). -/
theorem c3_missing_and_test_violations (func : FunctionDef) (lines : List String)
    (imports globals_in_module : List String) (next_node : Option Stmt)
    (_hargs : func.args = [])
    (hblock : extract_range_block lines (func.lineno - 1) = [])
    (hnext : nextIsTestFunctionDef next_node = false) :
    ("MISSING_RANGE_EXPECTATION:" ++ func.name)
        ∈ check_function_rules func lines imports globals_in_module next_node
      ∧ (isTestName func.name = false →
          ("IMMEDIATE_TEST_MISSING:" ++ func.name)
            ∈ check_function_rules func lines imports globals_in_module next_node)
      ∧ (isTestName func.name = true →
          ("IMMEDIATE_TEST_MISSING:" ++ func.name)
            ∉ check_function_rules func lines imports globals_in_module next_node) := by
  refine ⟨?_, ?_, ?_⟩
  · exact (cfr_mem_iff func lines imports globals_in_module next_node _).mpr
      (Or.inl ⟨by rw [hblock]; rfl, rfl⟩)
  · intro htest
    exact (cfr_mem_iff func lines imports globals_in_module next_node _).mpr
      (Or.inr (Or.inl ⟨by rw [htest, hnext]; rfl, rfl⟩))
  · intro htest hmem
    rcases (cfr_mem_iff func lines imports globals_in_module next_node _).mp hmem with
      ⟨_, hs⟩ | ⟨hcond, _⟩ | ⟨name, _, _, hs⟩ | ⟨name, _, _, hs⟩ | ⟨_, hs⟩
      | ⟨p, _, _, hs⟩ | ⟨line, _, _, hs⟩
    · exact strAppendNeOfGet _ _ _ _ 0 (by decide) (by decide) (by decide) hs.symm
    · rw [htest] at hcond
      simp at hcond
    · exact strAppendNeOfGet _ _ _ _ 2 (by decide) (by decide) (by decide) hs
    · exact strAppendNeOfGet _ _ _ _ 0 (by decide) (by decide) (by decide) hs
    · exact strAppendNeOfGet _ _ _ _ 0 (by decide) (by decide) (by decide) hs
    · exact strAppendNeOfGet _ _ _ _ 0 (by decide) (by decide) (by decide) hs
    · exact strAppendNeOfGet _ _ _ _ 0 (by decide) (by decide) (by decide) hs

/-- Witness for the amended C3 at concrete inputs: a plain declaration `h`
with empty block and no sibling receives both violations, and the
test-prefixed `test_x` is exempt from the adjacency violation. -/
theorem c3_witness :
    ("MISSING_RANGE_EXPECTATION:h" ∈ check_function_rules
        (FunctionDef.mk "h" 1 [] [2] []) ["def h():", "    pass"] [] [] none)
      ∧ ("IMMEDIATE_TEST_MISSING:h" ∈ check_function_rules
        (FunctionDef.mk "h" 1 [] [2] []) ["def h():", "    pass"] [] [] none)
      ∧ ("IMMEDIATE_TEST_MISSING:test_x" ∉ check_function_rules
        (FunctionDef.mk "test_x" 1 [] [2] []) ["def test_x():", "    pass"] [] [] none) :=
  ⟨(c3_missing_and_test_violations (FunctionDef.mk "h" 1 [] [2] [])
      ["def h():", "    pass"] [] [] none (by decide) (by decide) (by decide)).1,
    (c3_missing_and_test_violations (FunctionDef.mk "h" 1 [] [2] [])
      ["def h():", "    pass"] [] [] none (by decide) (by decide) (by decide)).2.1 (by decide),
    (c3_missing_and_test_violations (FunctionDef.mk "test_x" 1 [] [2] [])
      ["def test_x():", "    pass"] [] [] none (by decide) (by decide) (by decide)).2.2 (by decide)⟩

/- ===================== Claim C4 ===================== -/

/-- Claim C4 (counterexample): the final body statement of `test_g` starts on
line 3 and continues onto line 4, which contains `.seed(`.  The substring is
therefore present in the declaration's body line range (lines 2 through 4),
yet the violation is still emitted, because the code joins only the lines
from the first body statement's start line through the LAST body statement's
START line. -/
theorem c4_counterexample :
    pyContains (String.join (((["def test_g():", "    x = 1", "    foo(",
        "    ).seed(5)"]).take 4).drop 1)) ".seed(" = true
      ∧ "NON_DETERMINISTIC_TESTING:test_g" ∈ check_function_rules
          (FunctionDef.mk "test_g" 1 [] [2, 3] [])
          ["def test_g():", "    x = 1", "    foo(", "    ).seed(5)"] [] [] none := by
  decide

/-- Claim C4 (amended): for a test-prefixed declaration,
NON_DETERMINISTIC_TESTING is emitted if and only if the concatenation of the
raw lines from the first body statement's start line through the last body
statement's START line lacks the substring `.seed(`; continuation lines of a
multi-line final statement are not inspected. -/
theorem c4_nondet_iff (func : FunctionDef) (lines : List String)
    (imports globals_in_module : List String) (next_node : Option Stmt)
    (htest : isTestName func.name = true) :
    ("NON_DETERMINISTIC_TESTING:" ++ func.name)
        ∈ check_function_rules func lines imports globals_in_module next_node
      ↔ pyContains (bodyText func lines) ".seed(" = false := by
  rw [cfr_mem_iff]
  constructor
  · intro h
    rcases h with ⟨_, hs⟩ | ⟨_, hs⟩ | ⟨name, _, _, hs⟩ | ⟨name, _, _, hs⟩ | ⟨hcond, _⟩
      | ⟨p, _, _, hs⟩ | ⟨line, _, _, hs⟩
    · exact absurd hs (strAppendNeOfGet _ _ _ _ 0 (by decide) (by decide) (by decide))
    · exact absurd hs (strAppendNeOfGet _ _ _ _ 0 (by decide) (by decide) (by decide))
    · exact absurd hs (strAppendNeOfGet _ _ _ _ 0 (by decide) (by decide) (by decide))
    · exact absurd hs (strAppendNeOfGet _ _ _ _ 0 (by decide) (by decide) (by decide))
    · rcases Bool.and_eq_true_iff.mp hcond with ⟨_, hseed⟩
      simpa using hseed
    · exact absurd hs (strAppendNeOfGet _ _ _ _ 0 (by decide) (by decide) (by decide))
    · exact absurd hs (strAppendNeOfGet _ _ _ _ 0 (by decide) (by decide) (by decide))
  · intro h
    exact Or.inr (Or.inr (Or.inr (Or.inr (Or.inl ⟨by rw [htest, h]; rfl, rfl⟩))))

/-- Witness for the amended C4: a test function without the seeding call is
flagged, via the iff applied at a concrete input. -/
theorem c4_witness :
    isTestName "test_h" = true
      ∧ "NON_DETERMINISTIC_TESTING:test_h" ∈ check_function_rules
          (FunctionDef.mk "test_h" 1 [] [2] []) ["def test_h():", "    pass"] [] [] none :=
  ⟨by decide, (c4_nondet_iff (FunctionDef.mk "test_h" 1 [] [2] [])
      ["def test_h():", "    pass"] [] [] none (by decide)).mpr (by decide)⟩

/- ===================== Claim C9 ===================== -/

/-- A line that does not start with the comment marker at position zero has a
first character other than `'#'` (or none at all). -/
theorem head_ne_hash_of_not_startsWith (line : String) (h : pyStartsWith line "#" = false) :
    line.data.head? ≠ some '#' := by
  intro hh
  rcases hd : line.data with _ | ⟨c, rest⟩
  · rw [hd] at hh
    cases hh
  · rw [hd] at hh
    have hc : c = '#' := Option.some.inj hh
    subst hc
    rw [pyStartsWith, hd] at h
    simp [List.isPrefixOf] at h

/-- Claim C9: the parameter-documentation pattern is anchored to the start of
the raw line.  First part: a line whose first character is whitespace never
matches, for any parameter.  Second part: if every block line sitting at
column zero fails to document `p` (in particular when `p` is documented only
on indented lines), the incomplete-documentation violation for `p` is
emitted. -/
theorem c9_param_doc_anchored :
    (∀ (p line : String) (c : Char) (rest : List Char),
        pySpace c = true → line.data = c :: rest → paramDocMatch p line = false)
      ∧ (∀ (func : FunctionDef) (lines : List String)
          (imports globals_in_module : List String) (next_node : Option Stmt) (p : String),
          p ∈ func.args.map Arg.arg →
          (∀ line ∈ extract_range_block lines (func.lineno - 1),
            pyStartsWith line "#" = true → paramDocMatch p line = false) →
          ("RANGE_EXPECTATION_INCOMPLETE:" ++ (func.name ++ "/" ++ p))
            ∈ check_function_rules func lines imports globals_in_module next_node) := by
  constructor
  · intro p line c rest hws hdata
    apply paramDocMatch_eq_false_of_head
    rw [hdata]
    intro hh
    have hc : c = '#' := Option.some.inj hh
    subst hc
    exact absurd hws (by decide)
  · intro func lines imports globals_in_module next_node p hp hblock
    refine (cfr_mem_iff func lines imports globals_in_module next_node _).mpr
      (Or.inr (Or.inr (Or.inr (Or.inr (Or.inr (Or.inl ⟨p, hp, ?_, rfl⟩))))))
    have hany : (extract_range_block lines (func.lineno - 1)).any
        (fun line => paramDocMatch p line) = false := by
      apply List.any_eq_false.mpr
      intro line hl hmatch
      by_cases hstart : pyStartsWith line "#"
      · rw [hblock line hl hstart] at hmatch
        cases hmatch
      · rw [Bool.not_eq_true] at hstart
        rw [paramDocMatch_eq_false_of_head p line
          (head_ne_hash_of_not_startsWith line hstart)] at hmatch
        cases hmatch
    rw [hany]
    rfl

/-- Witness for C9: parameter `os` of `g` is documented only on an indented
comment line inside the block, and the incomplete-documentation violation is
emitted. -/
theorem c9_witness :
    pyStrip "  # os: documented only here" = "# os: documented only here"
      ∧ "RANGE_EXPECTATION_INCOMPLETE:g/os" ∈ check_function_rules
          (FunctionDef.mk "g" 2 [Arg.mk "os"] [3] [])
          ["  # os: documented only here", "def g(os):", "    pass"] [] [] none :=
  ⟨by decide, c9_param_doc_anchored.2
      (FunctionDef.mk "g" 2 [Arg.mk "os"] [3] [])
      ["  # os: documented only here", "def g(os):", "    pass"] [] [] none "os"
      (by decide) (by decide)⟩

/- ===================== Claim C8 ===================== -/

/-- Claim C8: duplicate-comment semantics of `check_comment_rules`.  For any
decomposition of the comment list around an entry `(n, t)`:
(1) if some earlier entry has the same stripped body, the later occurrence
`(n, t)` yields a duplicate violation; (2) if no earlier entry has the same
body (and no other entry reuses line number `n`), no duplicate violation for
line `n` is produced — the first occurrence never flags; (3) a single entry
that is both at most five words long and a duplicate of an earlier body
yields both a too-short and a duplicate violation for the same line. -/
theorem c8_duplicate_semantics (total : Nat) (pre : List (Nat × String)) (n : Nat)
    (t : String) (post : List (Nat × String)) :
    ((∃ p ∈ pre, commentBody p.2 = commentBody t) →
        ("DUPLICATE_COMMENT_FOUND:<file>/" ++ pyStrNat n)
          ∈ check_comment_rules (pre ++ (n, t) :: post) total)
      ∧ ((∀ p ∈ pre, commentBody p.2 ≠ commentBody t) →
          (∀ p ∈ pre ++ post, p.1 ≠ n) →
          ("DUPLICATE_COMMENT_FOUND:<file>/" ++ pyStrNat n)
            ∉ check_comment_rules (pre ++ (n, t) :: post) total)
      ∧ ((∃ p ∈ pre, commentBody p.2 = commentBody t) →
          (pyWords (commentBody t)).length ≤ 5 →
          ("COMMENT_TOO_SHORT:<file>/" ++ pyStrNat n)
              ∈ check_comment_rules (pre ++ (n, t) :: post) total
            ∧ ("DUPLICATE_COMMENT_FOUND:<file>/" ++ pyStrNat n)
              ∈ check_comment_rules (pre ++ (n, t) :: post) total) := by
  refine ⟨?_, ?_, ?_⟩
  · intro hex
    exact List.mem_append.mpr (Or.inr (ccrLoop_dup_mem pre [] n t post (Or.inr hex)))
  · intro hpre hlines hmem
    rcases List.mem_append.mp hmem with h1 | h2
    · rcases mem_if_singleton.mp h1 with ⟨_, heq⟩
      exact dup_ne_density n _ heq
    · exact ccrLoop_dup_not_mem pre [] n t post (List.not_mem_nil _) hpre hlines h2
  · intro hex hshort
    exact ⟨List.mem_append.mpr (Or.inr (ccrLoop_short_mem pre [] n t post hshort)),
      List.mem_append.mpr (Or.inr (ccrLoop_dup_mem pre [] n t post (Or.inr hex)))⟩

/-- Witness for C8 on the concrete list `[(1, "# a b"), (2, "# a b")]`: the
second occurrence is flagged as duplicate (and as too short), the first one
is not. -/
theorem c8_witness :
    (("DUPLICATE_COMMENT_FOUND:<file>/" ++ pyStrNat 2)
        ∈ check_comment_rules [(1, "# a b"), (2, "# a b")] 100)
      ∧ (("DUPLICATE_COMMENT_FOUND:<file>/" ++ pyStrNat 1)
        ∉ check_comment_rules [(1, "# a b"), (2, "# a b")] 100)
      ∧ (("COMMENT_TOO_SHORT:<file>/" ++ pyStrNat 2)
        ∈ check_comment_rules [(1, "# a b"), (2, "# a b")] 100) :=
  ⟨(c8_duplicate_semantics 100 [(1, "# a b")] 2 "# a b" []).1 (by decide),
    (c8_duplicate_semantics 100 [] 1 "# a b" [(2, "# a b")]).2.1 (by decide) (by decide),
    ((c8_duplicate_semantics 100 [(1, "# a b")] 2 "# a b" []).2.2 (by decide) (by decide)).1⟩

/- ===================== Claim C10 ===================== -/

/-- A tree without plain function definitions contributes no per-declaration
violations. -/
theorem lintLoop_eq_nil (lines : List String) (imports globals_in_module : List String) :
    ∀ tree : List Stmt, (∀ node ∈ tree, ∀ f : FunctionDef, node ≠ Stmt.functionDef f) →
      lintLoop lines imports globals_in_module tree = [] := by
  intro tree
  induction tree with
  | nil => intro _; rfl
  | cons node rest ih =>
    intro h
    have htail := ih (fun m hm => h m (List.mem_cons_of_mem _ hm))
    cases node with
    | functionDef f => exact absurd rfl (h _ (List.mem_cons_self _ _) f)
    | importLike a => simp [lintLoop, htail]
    | assign a => simp [lintLoop, htail]
    | asyncFunctionDef f => simp [lintLoop, htail]
    | classDef c => simp [lintLoop, htail]
    | otherStmt => simp [lintLoop, htail]

/-- Claim C10: `lint_file` applies per-declaration rules only to top-level
plain function definitions.  First part: a tree whose top-level statements
are all of other kinds (async functions, classes, imports, assignments, ...)
yields only the module-export and comment-policy violations.  Second part:
the test-adjacency requirement is not satisfied by an async following
sibling — a non-test plain declaration immediately followed by any async
function definition (even a test-prefixed one) receives
IMMEDIATE_TEST_MISSING. -/
theorem c10_plain_functiondefs_only (path : String) (lines : List String) :
    (∀ tree : List Stmt, (∀ node ∈ tree, ∀ f : FunctionDef, node ≠ Stmt.functionDef f) →
        lint_file path lines tree =
          (if !hasAll tree then ["MODULE_EXPORT_VIOLATION:" ++ path] else [])
            ++ check_comment_rules (parse_comments lines).1 lines.length)
      ∧ (∀ (pre post : List Stmt) (f g : FunctionDef),
          isTestName f.name = false →
          ("IMMEDIATE_TEST_MISSING:" ++ f.name)
            ∈ lint_file path lines
              (pre ++ Stmt.functionDef f :: Stmt.asyncFunctionDef g :: post)) := by
  constructor
  · intro tree h
    rw [lint_file_eq, lintLoop_eq_nil lines _ _ tree h, List.append_nil]
  · intro pre post f g htest
    rw [lint_file_eq]
    refine List.mem_append.mpr (Or.inr ?_)
    refine (lintLoop_mem_iff lines _ _
      (pre ++ Stmt.functionDef f :: Stmt.asyncFunctionDef g :: post) _).mpr ?_
    refine ⟨pre, f, Stmt.asyncFunctionDef g :: post, rfl, ?_⟩
    refine (cfr_mem_iff f lines _ _ _ _).mpr (Or.inr (Or.inl ⟨?_, rfl⟩))
    rw [htest]
    rfl

/-- Witness for C10 at concrete inputs: a lone class definition produces no
per-declaration violations, and a declaration followed by an async
test-prefixed function still receives IMMEDIATE_TEST_MISSING. -/
theorem c10_witness :
    (lint_file "p.py" ["x = 1"] [Stmt.classDef "C"]
        = (if !hasAll [Stmt.classDef "C"] then ["MODULE_EXPORT_VIOLATION:" ++ "p.py"] else [])
          ++ check_comment_rules (parse_comments ["x = 1"]).1 (["x = 1"].length))
      ∧ ("IMMEDIATE_TEST_MISSING:" ++ "h") ∈ lint_file "p.py" ["def h(): pass"]
          ([] ++ Stmt.functionDef (FunctionDef.mk "h" 1 [] [1] [])
            :: Stmt.asyncFunctionDef (FunctionDef.mk "test_k" 2 [] [2] []) :: []) :=
  ⟨(c10_plain_functiondefs_only "p.py" ["x = 1"]).1 [Stmt.classDef "C"]
      (by
        intro node hn f
        rw [List.mem_singleton] at hn
        subst hn
        intro hcontra
        cases hcontra),
    (c10_plain_functiondefs_only "p.py" ["def h(): pass"]).2 [] []
      (FunctionDef.mk "h" 1 [] [1] []) (FunctionDef.mk "test_k" 2 [] [2] []) (by decide)⟩

/- ===================== Claim C5 ===================== -/

/-- The fixed vocabulary of violation kinds. -/
def violationKinds : List String :=
  ["MODULE_EXPORT_VIOLATION", "INSUFFICIENT_COMMENT_DENSITY", "COMMENT_TOO_SHORT",
    "DUPLICATE_COMMENT_FOUND", "MISSING_RANGE_EXPECTATION", "IMMEDIATE_TEST_MISSING",
    "IMPLICIT_IMPORT_VIOLATION", "OUT_OF_SCOPE_VARIABLE", "NON_DETERMINISTIC_TESTING",
    "RANGE_EXPECTATION_INCOMPLETE", "CASE_EXPECTATION_UNDEFINED"]

/-- The names of the top-level plain function definitions of a tree — the
declarations the File Rule Engine checks. -/
def declNames (tree : List Stmt) : List String :=
  tree.filterMap (fun node =>
    match node with
    | Stmt.functionDef f => some f.name
    | _ => none)

/-- The subject taxonomy asserted by the claim: every violation line is
`KIND:subject` with `KIND` in the fixed vocabulary and `subject` either the
file path, a declaration name, or a declaration-name/name pair. -/
def claimSubjectShape (path : String) (tree : List Stmt) (v : String) : Prop :=
  ∃ kind subject, kind ∈ violationKinds ∧ v = kind ++ ":" ++ subject
    ∧ (subject = path ∨ subject ∈ declNames tree
        ∨ ∃ d rest, d ∈ declNames tree ∧ subject = d ++ "/" ++ rest)

/-- The subject taxonomy the code actually satisfies: additionally the
literal placeholder `<file>` followed by a slash and a line number, used by
the three comment-policy kinds. -/
def amendedSubjectShape (path : String) (tree : List Stmt) (v : String) : Prop :=
  ∃ kind subject, kind ∈ violationKinds ∧ v = kind ++ ":" ++ subject
    ∧ (subject = path
        ∨ (∃ n : Nat, subject = "<file>/" ++ pyStrNat n)
        ∨ subject ∈ declNames tree
        ∨ ∃ d rest, d ∈ declNames tree ∧ subject = d ++ "/" ++ rest)

/-- Every string produced by the comment loop is a too-short or duplicate
violation with a `<file>/<line-number>` subject. -/
theorem ccrLoop_shape :
    ∀ (cs : List (Nat × String)) (seen : List String) (v : String),
      v ∈ ccrLoop seen cs →
      ∃ n : Nat, v = "COMMENT_TOO_SHORT:<file>/" ++ pyStrNat n
        ∨ v = "DUPLICATE_COMMENT_FOUND:<file>/" ++ pyStrNat n := by
  intro cs
  induction cs with
  | nil =>
    intro seen v hv
    simp [ccrLoop] at hv
  | cons q rest ih =>
    intro seen v hv
    rcases q with ⟨m, u⟩
    rw [ccrLoop_cons] at hv
    rcases List.mem_append.mp hv with h12 | h3
    · rcases List.mem_append.mp h12 with h1 | h2
      · rcases mem_if_singleton.mp h1 with ⟨_, rfl⟩
        exact ⟨m, Or.inl rfl⟩
      · rcases mem_if_singleton.mp h2 with ⟨_, rfl⟩
        exact ⟨m, Or.inr rfl⟩
    · exact ih _ v h3

/-- Every string produced by `check_comment_rules` is a density, too-short or
duplicate violation with a `<file>/<line-number>` subject. -/
theorem ccr_shape (comments : List (Nat × String)) (total_lines : Nat) (v : String)
    (hv : v ∈ check_comment_rules comments total_lines) :
    ∃ n : Nat, v = "INSUFFICIENT_COMMENT_DENSITY:<file>/" ++ pyStrNat n
      ∨ v = "COMMENT_TOO_SHORT:<file>/" ++ pyStrNat n
      ∨ v = "DUPLICATE_COMMENT_FOUND:<file>/" ++ pyStrNat n := by
  rcases List.mem_append.mp hv with h1 | h2
  · rcases mem_if_singleton.mp h1 with ⟨_, rfl⟩
    exact ⟨densityLineNo comments, Or.inl rfl⟩
  · rcases ccrLoop_shape comments [] v h2 with ⟨n, h | h⟩
    · exact ⟨n, Or.inr (Or.inl h)⟩
    · exact ⟨n, Or.inr (Or.inr h)⟩

/-- Every string produced by `check_function_rules` carries the declaration
name as its subject, possibly extended by a slash and a further name. -/
theorem cfr_shape (func : FunctionDef) (lines : List String)
    (imports globals_in_module : List String) (next_node : Option Stmt) (v : String)
    (hv : v ∈ check_function_rules func lines imports globals_in_module next_node) :
    (∃ kind, kind ∈ ["MISSING_RANGE_EXPECTATION", "IMMEDIATE_TEST_MISSING",
        "NON_DETERMINISTIC_TESTING"] ∧ v = kind ++ ":" ++ func.name)
      ∨ (∃ kind rest, kind ∈ ["IMPLICIT_IMPORT_VIOLATION", "OUT_OF_SCOPE_VARIABLE",
        "RANGE_EXPECTATION_INCOMPLETE", "CASE_EXPECTATION_UNDEFINED"]
        ∧ v = kind ++ ":" ++ (func.name ++ "/" ++ rest)) := by
  rcases (cfr_mem_iff func lines imports globals_in_module next_node v).mp hv with
    ⟨_, rfl⟩ | ⟨_, rfl⟩ | ⟨name, _, _, rfl⟩ | ⟨name, _, _, rfl⟩ | ⟨_, rfl⟩
    | ⟨p, _, _, rfl⟩ | ⟨line, _, _, rfl⟩
  · exact Or.inl ⟨"MISSING_RANGE_EXPECTATION", by decide, rfl⟩
  · exact Or.inl ⟨"IMMEDIATE_TEST_MISSING", by decide, rfl⟩
  · exact Or.inr ⟨"IMPLICIT_IMPORT_VIOLATION", name, by decide, rfl⟩
  · exact Or.inr ⟨"OUT_OF_SCOPE_VARIABLE", name, by decide, rfl⟩
  · exact Or.inl ⟨"NON_DETERMINISTIC_TESTING", by decide, rfl⟩
  · exact Or.inr ⟨"RANGE_EXPECTATION_INCOMPLETE", p, by decide, rfl⟩
  · exact Or.inr ⟨"CASE_EXPECTATION_UNDEFINED", caseLabel line, by decide, rfl⟩

/-- Claim C5 (counterexample): the density violation produced for the file
`p.py` has subject `<file>/1` — the literal placeholder `<file>` with a line
number — which is neither the file path, nor a declaration name, nor a
declaration-name/name pair (the tree has no declarations), so the claim's
subject taxonomy does not cover it. -/
theorem c5_counterexample :
    ("INSUFFICIENT_COMMENT_DENSITY:<file>/" ++ pyStrNat 1)
        ∈ lint_file "p.py" ["x = 1"] [Stmt.assign [Target.name "x"]]
      ∧ ¬ claimSubjectShape "p.py" [Stmt.assign [Target.name "x"]]
          ("INSUFFICIENT_COMMENT_DENSITY:<file>/" ++ pyStrNat 1) := by
  constructor
  · decide
  · rintro ⟨kind, subject, hk, hv, hs⟩
    have hdecl : declNames [Stmt.assign [Target.name "x"]] = [] := rfl
    rw [hdecl] at hs
    rcases hs with hs | hs | ⟨d, rest, hd, _⟩
    · subst hs
      fin_cases hk <;> exact absurd hv (by decide)
    · exact absurd hs (List.not_mem_nil _)
    · exact absurd hd (List.not_mem_nil _)

/-- Claim C5 (amended): every violation string produced by `lint_file` has
the form `KIND:subject` with `KIND` one of the eleven vocabulary kinds and
`subject` one of: the file path (module-export), the literal placeholder
`<file>` followed by `/` and a line number (the three comment-policy kinds),
a declaration name, or a declaration-name/name pair. -/
theorem c5_amended_subject_shape (path : String) (lines : List String) (tree : List Stmt) :
    ∀ v ∈ lint_file path lines tree, amendedSubjectShape path tree v := by
  intro v hv
  rw [lint_file_eq] at hv
  rcases List.mem_append.mp hv with h12 | h3
  · rcases List.mem_append.mp h12 with h1 | h2
    · rcases mem_if_singleton.mp h1 with ⟨_, rfl⟩
      exact ⟨"MODULE_EXPORT_VIOLATION", path, by decide, rfl, Or.inl rfl⟩
    · rcases ccr_shape _ _ v h2 with ⟨n, h | h | h⟩
      · subst h
        refine ⟨"INSUFFICIENT_COMMENT_DENSITY", "<file>/" ++ pyStrNat n, by decide, ?_,
          Or.inr (Or.inl ⟨n, rfl⟩)⟩
        rw [← String.append_assoc]
        rfl
      · subst h
        refine ⟨"COMMENT_TOO_SHORT", "<file>/" ++ pyStrNat n, by decide, ?_,
          Or.inr (Or.inl ⟨n, rfl⟩)⟩
        rw [← String.append_assoc]
        rfl
      · subst h
        refine ⟨"DUPLICATE_COMMENT_FOUND", "<file>/" ++ pyStrNat n, by decide, ?_,
          Or.inr (Or.inl ⟨n, rfl⟩)⟩
        rw [← String.append_assoc]
        rfl
  · rcases (lintLoop_mem_iff lines _ _ tree v).mp h3 with ⟨pre, f, post, heq, hmem⟩
    have hfname : f.name ∈ declNames tree := by
      rw [heq]
      refine List.mem_filterMap.mpr ⟨Stmt.functionDef f, ?_, rfl⟩
      exact List.mem_append.mpr (Or.inr (List.mem_cons_self _ _))
    rcases cfr_shape f lines _ _ _ v hmem with ⟨kind, hk, rfl⟩ | ⟨kind, rest, hk, rfl⟩
    · refine ⟨kind, f.name, ?_, rfl, Or.inr (Or.inr (Or.inl hfname))⟩
      fin_cases hk <;> decide
    · refine ⟨kind, f.name ++ "/" ++ rest, ?_, rfl,
        Or.inr (Or.inr (Or.inr ⟨f.name, rest, hfname, rfl⟩))⟩
      fin_cases hk <;> decide

/-- Witness for the amended C5: the module-export violation of an empty tree
has the claimed shape. -/
theorem c5_witness :
    amendedSubjectShape "p.py" ([] : List Stmt) ("MODULE_EXPORT_VIOLATION:" ++ "p.py") :=
  c5_amended_subject_shape "p.py" [] [] _ (by decide)
